import Mathlib

/-!
Verification development for the taskflow CLI (a local, file-persisted task
queue written in JavaScript; sources: src/unnamed/part_001 and src/taskflow.js).

Embedding conventions:
- Timestamps are modeled as integers (milliseconds since the epoch).  The
  source stores ISO-8601 strings produced by `new Date().toISOString()` and
  compares them lexicographically; on that format the lexicographic order is
  isomorphic to the numeric order, so `Option Int` with `none` for an
  absent/null field is an order-faithful model.  A JavaScript falsy check on a
  string timestamp (`!t.next_run_at`, `a.created_at || ''`) corresponds to the
  `none` case.
- States are plain strings, exactly as in the source (unknown legacy state
  names pass through `j.state || 'waiting'` untouched, so an inductive type of
  four states would not be faithful).
- `attempts` and `max_retries` are natural numbers, following the data model
  of the source (non-negative integer counters).
- Fallible operations that in the source return early before calling
  `saveData` are modeled as `Option`-returning functions: `none` means the
  operation returned without writing; `some s` means the snapshot `s` was
  persisted.
- The persisted file is modeled by `FileContent`; JSON encoding is treated as
  the identity on the parsed structure (the spec excludes encoding details).
- `Array.prototype.sort` with a consistent comparator is stable in Node
  (ES2019); it is embedded as a stable insertion sort on the same comparator.
-/

namespace Taskflow

/-- Config block `{max_retries, backoff_base}`.  Fields are optional because a
stored config object may lack either key (the source reads them with `||` or
`??` fallbacks). -/
structure Config where
  max_retries : Option Nat
  backoff_base : Option Int
deriving DecidableEq, Repr

/-- `DEFAULT_CONF = { max_retries: 3, backoff_base: 2 }` from both sources. -/
def DEFAULT_CONF : Config := { max_retries := some 3, backoff_base := some 2 }

/-- Canonical task record, schema of section 6 of the spec and of
`addTaskObject`/`loadData` in the source. -/
structure Task where
  id : String
  command : String
  state : String
  attempts : Nat
  max_retries : Nat
  created_at : Option Int
  updated_at : Option Int
  next_run_at : Option Int
  last_error : Option String
  exit_code : Option Int
deriving DecidableEq, Repr

/-- Full store snapshot: `{tasks: [...], config: {...}}`. -/
structure Snapshot where
  tasks : List Task
  config : Config
deriving DecidableEq, Repr

/-- A record of the legacy `jobs[]` schema (`state` in
pending/processing/completed/dead, field `next_attempt_at`).  All fields other
than `id`/`command` are optional since `loadData` guards each with a fallback. -/
structure LegacyJob where
  id : String
  command : String
  state : Option String
  attempts : Option Nat
  max_retries : Option Nat
  created_at : Option Int
  updated_at : Option Int
  next_attempt_at : Option Int
  last_error : Option String
  exit_code : Option Int
deriving DecidableEq, Repr

/-- Parsed payload given to `addTaskObject` (arbitrary JSON object; every
field the source reads is optional except `command`, whose absence or
emptiness makes the call throw). -/
structure TaskInput where
  id : Option String
  command : String
  state : Option String
  attempts : Option Nat
  max_retries : Option Nat
  created_at : Option Int
  updated_at : Option Int
  next_run_at : Option Int
  last_error : Option String
  exit_code : Option Int
deriving DecidableEq, Repr

/-- Parsed content of the backing file: absent, unparsable / wrong shape,
legacy `{jobs: [...]}` shape, or canonical `{tasks: [...]}` shape (config
object possibly missing in the last two). -/
inductive FileContent where
  | absent : FileContent
  | malformed : FileContent
  | legacy (jobs : List LegacyJob) (config : Option Config) : FileContent
  | canonical (tasks : List Task) (config : Option Config) : FileContent
deriving DecidableEq, Repr

/-- JavaScript `s || null` on an optional string: the empty string is falsy. -/
def normStr : Option String → Option String
  | none => none
  | some s => if s = "" then none else some s

/-- JavaScript `v || null` on an optional number: `0` is falsy. -/
def normExit : Option Int → Option Int
  | none => none
  | some v => if v = 0 then none else some v

/-- Legacy state renaming in `loadData`:
`pending` to `waiting`, `processing` to `running`, `completed` to `done`,
`dead` to `failed`, anything else `j.state || 'waiting'`. -/
def migrateState : Option String → String
  | some "pending" => "waiting"
  | some "processing" => "running"
  | some "completed" => "done"
  | some "dead" => "failed"
  | some s => if s = "" then "waiting" else s
  | none => "waiting"

/-- Per-record legacy upgrade performed by the `raw.jobs` branch of
`loadData`.  Note `max_retries` uses a null check (`!= null ?`), `attempts`
and `exit_code` use falsy checks, and `next_attempt_at` is renamed to
`next_run_at`.  The literal 3 is `DEFAULT_CONF.max_retries`. -/
def migrateJob (j : LegacyJob) : Task :=
  { id := j.id
    command := j.command
    state := migrateState j.state
    attempts := j.attempts.getD 0
    max_retries := j.max_retries.getD 3
    created_at := j.created_at
    updated_at := j.updated_at
    next_run_at := j.next_attempt_at
    last_error := normStr j.last_error
    exit_code := normExit j.exit_code }

/-- `saveData`: atomic whole-snapshot write (write temp file, rename).  At the
structure level it replaces the file content with the canonical encoding of
the snapshot. -/
def saveData (s : Snapshot) : FileContent := .canonical s.tasks (some s.config)

/-- `loadData`: returns the snapshot read plus the file content afterwards
(the legacy branch persists the migrated snapshot before returning; every
other branch leaves the file untouched). -/
def loadData : FileContent → Snapshot × FileContent
  | .absent => ({ tasks := [], config := DEFAULT_CONF }, .absent)
  | .malformed => ({ tasks := [], config := DEFAULT_CONF }, .malformed)
  | .legacy jobs cfg =>
    let migrated : Snapshot := { tasks := jobs.map migrateJob, config := cfg.getD DEFAULT_CONF }
    (migrated, saveData migrated)
  | .canonical tasks cfg => ({ tasks := tasks, config := cfg.getD DEFAULT_CONF }, .canonical tasks cfg)

/-- `data.tasks.find(pred)` followed by an in-place mutation of the found
record and a whole-snapshot save: returns `none` when nothing matches (the
source returns early, no write), else the task list with the first match
replaced by its update. -/
def updateFirst (p : Task → Bool) (f : Task → Task) : List Task → Option (List Task)
  | [] => none
  | x :: xs => if p x then some (f x :: xs) else (updateFirst p f xs).map (fun ys => x :: ys)

/-- In-place mutation of one specific record of the collection (the source
mutates the object reference returned by filter/sort; structurally that is
the first occurrence of the record). -/
def replaceFirst (o n : Task) : List Task → List Task
  | [] => []
  | x :: xs => if x = o then n :: xs else x :: replaceFirst o n xs

/-- Comparator key order used by `claimTask`:
`(a.created_at || '').localeCompare(b.created_at || '')`, the empty string
(absent timestamp) sorting first. -/
def createdLeB : Option Int → Option Int → Bool
  | none, _ => true
  | some _, none => false
  | some x, some y => decide (x ≤ y)

/-- The claim comparator lifted to tasks. -/
def taskLe (a b : Task) : Bool := createdLeB a.created_at b.created_at

/-- Insert into a sorted list, before the first element that is not smaller:
the stable insertion step. -/
def orderedInsertTask (a : Task) : List Task → List Task
  | [] => [a]
  | b :: l => if taskLe a b then a :: b :: l else b :: orderedInsertTask a l

/-- Stable sort by `created_at` ascending, embedding
`available.sort((a, b) => (a.created_at || '').localeCompare(b.created_at || ''))`. -/
def sortTasks : List Task → List Task
  | [] => []
  | a :: l => orderedInsertTask a (sortTasks l)

/-- First minimal element of a list under `taskLe` (earliest index among the
minimal ones); used to characterize the head of the stable sort. -/
def firstMinTask : List Task → Option Task
  | [] => none
  | a :: l =>
    match firstMinTask l with
    | none => some a
    | some m => some (if taskLe a m then a else m)

/-- Eligibility predicate of `claimTask`:
`t.state === 'waiting' && (!t.next_run_at || t.next_run_at <= now)`. -/
def eligible (now : Int) (t : Task) : Bool :=
  t.state == "waiting" &&
    (match t.next_run_at with
     | none => true
     | some v => decide (v ≤ now))

/-- `claimTask` from the source: filter eligible tasks, stable-sort them by
`created_at`, take the first, set it running, refresh `updated_at`, persist
the whole snapshot and return the claimed task.  `none` models the early
`return null` (no write).  `now` is the eligibility clock read; `nowUpd` the
second `timestamp()` call used for `updated_at`. -/
def claimTask (now nowUpd : Int) (data : Snapshot) : Option (Task × Snapshot) :=
  match sortTasks (data.tasks.filter (eligible now)) with
  | [] => none
  | task :: _ =>
    let claimed := { task with state := "running", updated_at := some nowUpd }
    some (claimed, { data with tasks := replaceFirst task claimed data.tasks })

/-- `markDone(id)`: find the task by id (early return when absent, no write),
set state `done`, `exit_code` 0, refresh `updated_at`, save. -/
def markDone (now : Int) (id : String) (data : Snapshot) : Option Snapshot :=
  (updateFirst (fun t => t.id == id)
      (fun t => { t with state := "done", exit_code := some 0, updated_at := some now })
      data.tasks).map (fun ts => { data with tasks := ts })

/-- `Number(base || data.config.backoff_base || DEFAULT_CONF.backoff_base)`:
a falsy (zero) base argument falls back to the configured base, a falsy
configured base falls back to the default 2. -/
def effectiveBase (base : Int) (cfg : Config) : Int :=
  if base ≠ 0 then base
  else
    match cfg.backoff_base with
    | some v => if v ≠ 0 then v else 2
    | none => 2

/-- The per-task update of `markFailed` in src/unnamed/part_001: set
`attempts` to the scored count plus one, record `last_error`/`exit_code`;
if the new count reaches `t.max_retries` (`>=`) the task becomes `failed`
with no new schedule, otherwise it returns to `waiting` with
`next_run_at = now + base ^ attempts * 1000` milliseconds. -/
def scoreTask (nowUpd nowMs : Int) (attempts : Nat) (code : Int) (err : String)
    (base : Int) (cfg : Config) (t : Task) : Task :=
  let a := attempts + 1
  if a ≥ t.max_retries then
    { t with attempts := a, last_error := some err, exit_code := some code,
             state := "failed", updated_at := some nowUpd }
  else
    let delay : Int := (effectiveBase base cfg) ^ a
    { t with attempts := a, last_error := some err, exit_code := some code,
             next_run_at := some (nowMs + delay * 1000),
             state := "waiting", updated_at := some nowUpd }

/-- `markFailed` from src/unnamed/part_001.  The `maxRetries` argument is
accepted and ignored, exactly as in the source (the body reads
`t.max_retries` from the stored record).  `none` models the early return when
the id is absent (no write). -/
def markFailed (nowUpd nowMs : Int) (id : String) (attempts maxRetries : Nat)
    (code : Int) (err : String) (base : Int) (data : Snapshot) : Option Snapshot :=
  (updateFirst (fun t => t.id == id)
      (scoreTask nowUpd nowMs attempts code err base data.config)
      data.tasks).map (fun ts => { data with tasks := ts })

/-- The per-task update of `markFailed` in src/taskflow.js: identical to
`scoreTask` except that the terminal test is strict (`>` instead of `>=`). -/
def scoreTaskTfjs (nowUpd nowMs : Int) (attempts : Nat) (code : Int) (err : String)
    (base : Int) (cfg : Config) (t : Task) : Task :=
  let a := attempts + 1
  if a > t.max_retries then
    { t with attempts := a, last_error := some err, exit_code := some code,
             state := "failed", updated_at := some nowUpd }
  else
    let delay : Int := (effectiveBase base cfg) ^ a
    { t with attempts := a, last_error := some err, exit_code := some code,
             next_run_at := some (nowMs + delay * 1000),
             state := "waiting", updated_at := some nowUpd }

/-- `markFailed` from src/taskflow.js (strict terminal test). -/
def markFailedTfjs (nowUpd nowMs : Int) (id : String) (attempts maxRetries : Nat)
    (code : Int) (err : String) (base : Int) (data : Snapshot) : Option Snapshot :=
  (updateFirst (fun t => t.id == id)
      (scoreTaskTfjs nowUpd nowMs attempts code err base data.config)
      data.tasks).map (fun ts => { data with tasks := ts })

/-- The `dead retry <id>` action: find a task with the given id in state
`failed` (else print an error and exit 1 without writing, modeled by `none`);
reset it to `waiting` with `attempts = 0` and `next_run_at = null`, save. -/
def deadRetry (now : Int) (id : String) (data : Snapshot) : Option Snapshot :=
  (updateFirst (fun t => t.id == id && t.state == "failed")
      (fun t => { t with state := "waiting", attempts := 0, next_run_at := none,
                         updated_at := some now })
      data.tasks).map (fun ts => { data with tasks := ts })

/-- `const id = task.id || uuidv4()`: the fresh uuid is a parameter. -/
def addId (fresh : String) (input : TaskInput) : String :=
  match input.id with
  | none => fresh
  | some s => if s = "" then fresh else s

/-- The `entry` record built by `addTaskObject`.  `max_retries` uses the
null-coalescing chain `task.max_retries ?? data.config.max_retries ?? 3`. -/
def addEntry (now : Int) (fresh : String) (input : TaskInput) (cfg : Config) : Task :=
  { id := addId fresh input
    command := input.command
    state := match input.state with
      | none => "waiting"
      | some s => if s = "" then "waiting" else s
    attempts := input.attempts.getD 0
    max_retries := match input.max_retries with
      | some v => v
      | none => cfg.max_retries.getD 3
    created_at := some (input.created_at.getD now)
    updated_at := some (input.updated_at.getD now)
    next_run_at := input.next_run_at
    last_error := normStr input.last_error
    exit_code := normExit input.exit_code }

/-- `addTaskObject`: throw when `command` is falsy (modeled by `none`);
otherwise build the entry, then either overwrite the first task with the same
id in place (`findIndex` then assignment) or push the entry at the end, and
save.  Returns the id like the source. -/
def addTaskObject (now : Int) (fresh : String) (input : TaskInput) (data : Snapshot) :
    Option (String × Snapshot) :=
  if input.command = "" then none
  else
    let id := addId fresh input
    let entry := addEntry now fresh input data.config
    match updateFirst (fun t => t.id == id) (fun _ => entry) data.tasks with
    | some ts => some (id, { data with tasks := ts })
    | none => some (id, { data with tasks := data.tasks ++ [entry] })

/-! Shared lemmas about the embedded operations. -/

theorem updateFirst_eq_none {p : Task → Bool} {f : Task → Task} {l : List Task} :
    updateFirst p f l = none ↔ ∀ x ∈ l, p x = false := by
  induction l with
  | nil => simp [updateFirst]
  | cons x xs ih =>
    cases hp : p x
    · simp [updateFirst, hp, ih]
    · simp [updateFirst, hp]

theorem updateFirst_append {p : Task → Bool} {f : Task → Task} (l₁ : List Task) {t : Task}
    (l₂ : List Task) (h₁ : ∀ x ∈ l₁, p x = false) (ht : p t = true) :
    updateFirst p f (l₁ ++ t :: l₂) = some (l₁ ++ f t :: l₂) := by
  induction l₁ with
  | nil => simp [updateFirst, ht]
  | cons a l ih =>
    have ha : p a = false := h₁ a (List.mem_cons_self a l)
    simp [updateFirst, ha, ih (fun x hx => h₁ x (List.mem_cons_of_mem a hx))]

theorem updateFirst_eq_some {p : Task → Bool} {f : Task → Task} :
    ∀ {l l' : List Task}, updateFirst p f l = some l' →
      ∃ l₁ t l₂, l = l₁ ++ t :: l₂ ∧ l' = l₁ ++ f t :: l₂ ∧ p t = true ∧ ∀ x ∈ l₁, p x = false := by
  intro l
  induction l with
  | nil => intro l' h; simp [updateFirst] at h
  | cons x xs ih =>
    intro l' h
    cases hp : p x
    · rw [updateFirst, hp] at h
      simp only [Bool.false_eq_true, if_false, Option.map_eq_some'] at h
      obtain ⟨ys, hys, rfl⟩ := h
      obtain ⟨l₁, t, l₂, rfl, rfl, hpt, hl₁⟩ := ih hys
      refine ⟨x :: l₁, t, l₂, rfl, rfl, hpt, ?_⟩
      intro y hy
      rcases List.mem_cons.mp hy with rfl | hy'
      · exact hp
      · exact hl₁ y hy'
    · rw [updateFirst, hp] at h
      simp only [if_true, Option.some.injEq] at h
      exact ⟨[], x, xs, rfl, by simp [← h], hp, by simp⟩

theorem map_replaceFirst {α : Type} (g : Task → α) (o n : Task) (h : g o = g n) :
    ∀ l : List Task, (replaceFirst o n l).map g = l.map g := by
  intro l
  induction l with
  | nil => rfl
  | cons x xs ih =>
    by_cases hx : x = o
    · subst hx
      simp [replaceFirst, ih, ← h]
    · simp [replaceFirst, hx, ih]

theorem replaceFirst_append (o n : Task) (l₁ l₂ : List Task) (h : o ∉ l₁) :
    replaceFirst o n (l₁ ++ o :: l₂) = l₁ ++ n :: l₂ := by
  induction l₁ with
  | nil => simp [replaceFirst]
  | cons x xs ih =>
    simp only [List.mem_cons, not_or] at h
    have hx : ¬ x = o := fun he => h.1 he.symm
    simp [replaceFirst, hx, ih h.2]

theorem createdLeB_refl (a : Option Int) : createdLeB a a = true := by
  cases a <;> simp [createdLeB]

theorem createdLeB_total (a b : Option Int) : createdLeB a b = true ∨ createdLeB b a = true := by
  cases a <;> cases b <;> simp [createdLeB] <;> omega

theorem createdLeB_trans {a b c : Option Int} (h₁ : createdLeB a b = true)
    (h₂ : createdLeB b c = true) : createdLeB a c = true := by
  cases a <;> cases b <;> cases c <;> simp_all [createdLeB] <;> omega

theorem taskLe_refl (a : Task) : taskLe a a = true := createdLeB_refl _

theorem taskLe_total (a b : Task) : taskLe a b = true ∨ taskLe b a = true :=
  createdLeB_total _ _

theorem taskLe_trans {a b c : Task} (h₁ : taskLe a b = true) (h₂ : taskLe b c = true) :
    taskLe a c = true := createdLeB_trans h₁ h₂

theorem taskLe_of_false {a b : Task} (h : taskLe a b = false) : taskLe b a = true :=
  (taskLe_total a b).resolve_left (by simp [h])

theorem firstMinTask_eq_none {l : List Task} : firstMinTask l = none ↔ l = [] := by
  cases l with
  | nil => simp [firstMinTask]
  | cons a t => cases h : firstMinTask t <;> simp [firstMinTask, h]

theorem head_sortTasks : ∀ l : List Task, (sortTasks l).head? = firstMinTask l := by
  intro l
  induction l with
  | nil => rfl
  | cons a l ih =>
    cases hs : sortTasks l with
    | nil =>
      have h0 : firstMinTask l = none := by rw [← ih, hs]; rfl
      rw [show sortTasks (a :: l) = orderedInsertTask a (sortTasks l) from rfl, hs]
      simp [orderedInsertTask, firstMinTask, h0]
    | cons b t =>
      have hb : firstMinTask l = some b := by rw [← ih, hs]; rfl
      rw [show sortTasks (a :: l) = orderedInsertTask a (sortTasks l) from rfl, hs]
      cases hab : taskLe a b <;> simp [orderedInsertTask, hab, firstMinTask, hb]

theorem firstMinTask_mem : ∀ {l : List Task} {m : Task}, firstMinTask l = some m → m ∈ l := by
  intro l
  induction l with
  | nil => intro m h; simp [firstMinTask] at h
  | cons a t ih =>
    intro m h
    cases hf : firstMinTask t with
    | none =>
      simp [firstMinTask, hf] at h
      exact h ▸ List.mem_cons_self a t
    | some m' =>
      simp only [firstMinTask, hf, Option.some.injEq] at h
      cases hle : taskLe a m'
      · rw [hle] at h
        simp at h
        exact h ▸ List.mem_cons_of_mem a (ih hf)
      · rw [hle] at h
        simp at h
        exact h ▸ List.mem_cons_self a t

theorem firstMinTask_min : ∀ {l : List Task} {m : Task}, firstMinTask l = some m →
    ∀ x ∈ l, taskLe m x = true := by
  intro l
  induction l with
  | nil => intro m h; simp [firstMinTask] at h
  | cons a t ih =>
    intro m h x hx
    cases hf : firstMinTask t with
    | none =>
      have ht : t = [] := firstMinTask_eq_none.mp hf
      subst ht
      simp [firstMinTask, hf] at h
      rcases List.mem_cons.mp hx with rfl | hx'
      · exact h ▸ taskLe_refl x
      · simp at hx'
    | some m' =>
      simp only [firstMinTask, hf, Option.some.injEq] at h
      cases hle : taskLe a m'
      · rw [hle] at h
        simp at h
        subst h
        rcases List.mem_cons.mp hx with rfl | hx'
        · exact taskLe_of_false hle
        · exact ih hf x hx'
      · rw [hle] at h
        simp at h
        subst h
        rcases List.mem_cons.mp hx with rfl | hx'
        · exact taskLe_refl x
        · exact taskLe_trans hle (ih hf x hx')

theorem firstMinTask_append_of (m : Task) (f₁ f₂ : List Task)
    (h₁ : ∀ x ∈ f₁, taskLe x m = false) (h₂ : ∀ x ∈ f₂, taskLe m x = true) :
    firstMinTask (f₁ ++ m :: f₂) = some m := by
  induction f₁ with
  | nil =>
    simp only [List.nil_append]
    cases hf : firstMinTask f₂ with
    | none => simp [firstMinTask, hf]
    | some m' =>
      have hmm : taskLe m m' = true := h₂ m' (firstMinTask_mem hf)
      simp [firstMinTask, hf, hmm]
  | cons a f₁ ih =>
    have ha : taskLe a m = false := h₁ a (List.mem_cons_self a f₁)
    have ihh := ih (fun x hx => h₁ x (List.mem_cons_of_mem a hx))
    simp [firstMinTask, List.cons_append, ihh, ha]

/-! Concrete fixtures used by the closed evaluation theorems. -/

def wTaskA : Task :=
  { id := "a", command := "echo a", state := "waiting", attempts := 0, max_retries := 3,
    created_at := some 5, updated_at := some 5, next_run_at := none,
    last_error := none, exit_code := none }

def wTaskB : Task :=
  { id := "b", command := "echo b", state := "waiting", attempts := 0, max_retries := 3,
    created_at := some 2, updated_at := some 2, next_run_at := none,
    last_error := none, exit_code := none }

def wSnap : Snapshot := { tasks := [wTaskA, wTaskB], config := DEFAULT_CONF }

def wSnap1 : Snapshot := { tasks := [wTaskA], config := DEFAULT_CONF }

def emptySnap : Snapshot := { tasks := [], config := DEFAULT_CONF }

/-- The single test task of the selfcheck command: added with
`{command: "echo test", max_retries: 1}` and then claimed. -/
def selfTask : Task :=
  { id := "t1", command := "echo test", state := "running", attempts := 0, max_retries := 1,
    created_at := some 1, updated_at := some 1, next_run_at := none,
    last_error := none, exit_code := none }

def selfSnap : Snapshot := { tasks := [selfTask], config := DEFAULT_CONF }

def cTask : Task :=
  { id := "t1", command := "false", state := "running", attempts := 0, max_retries := 3,
    created_at := some 1, updated_at := some 1, next_run_at := none,
    last_error := none, exit_code := none }

def cSnap : Snapshot := { tasks := [cTask], config := DEFAULT_CONF }

def dTaskF : Task :=
  { id := "f", command := "echo f", state := "failed", attempts := 3, max_retries := 3,
    created_at := some 1, updated_at := some 1, next_run_at := none,
    last_error := some "Exit 1", exit_code := some 1 }

def dTaskD : Task :=
  { id := "d", command := "echo d", state := "done", attempts := 0, max_retries := 3,
    created_at := some 2, updated_at := some 2, next_run_at := none,
    last_error := none, exit_code := some 0 }

def dSnap : Snapshot := { tasks := [dTaskF, dTaskD], config := DEFAULT_CONF }

/-- An add payload whose id collides with the stored task `wTaskA`. -/
def inputA : TaskInput :=
  { id := some "a", command := "echo new", state := none, attempts := none,
    max_retries := none, created_at := none, updated_at := none, next_run_at := none,
    last_error := none, exit_code := none }

/-- Reduction of `claimTask` once the sorted candidate list is known. -/
theorem claimTask_eq_of_sort (now nowUpd : Int) (data : Snapshot) (m : Task) (rest : List Task)
    (hs : sortTasks (data.tasks.filter (eligible now)) = m :: rest) :
    claimTask now nowUpd data =
      some ({ m with state := "running", updated_at := some nowUpd },
            { data with
              tasks := replaceFirst m { m with state := "running", updated_at := some nowUpd } data.tasks }) := by
  unfold claimTask
  rw [hs]

/-! Claim theorems. -/

/-- Claim C1, evaluation at the failing input.  On the store built by the
selfcheck command (one task with `max_retries = 1`, `attempts = 0`), scoring
one failing execution reaches `attempts = 1 = max_retries`.  The
src/unnamed/part_001 policy (`>=`) makes the task `failed` as the claim
states, but the src/taskflow.js policy (`>`) sends it back to `waiting`,
contradicting the claim and the expectation of the selfcheck test in
src/taskflow.js itself. -/
theorem c1_eq_boundary_divergence :
    (markFailedTfjs 50 1000 "t1" 0 1 1 "simulate" 2 selfSnap).map
        (fun s => s.tasks.map Task.state) = some ["waiting"] ∧
    (markFailed 50 1000 "t1" 0 1 1 "simulate" 2 selfSnap).map
        (fun s => s.tasks.map Task.state) = some ["failed"] := by
  decide

/-- Claim C2, counterexample to the universal quantification over bases.
With base argument 0 (a falsy number) and stored config base 2, the task
`cTask` (attempts 0, max 3) is rescheduled at `now + 2 ^ 1` seconds, not at
`now + 0 ^ 1` seconds as the claim formula demands for b = 0: the source
computes `Number(base || data.config.backoff_base || 2)`. -/
theorem c2_zero_base_counterexample :
    (markFailed 50 1000 "t1" 0 3 1 "boom" 0 cSnap).map
        (fun s => s.tasks.map Task.next_run_at) = some [some 3000] ∧
    ¬ ((1000 : Int) + 0 ^ (0 + 1) * 1000 = 3000) := by
  decide

/-- Claim C2 as amended: for every scored failure that stays non-terminal
(`attempts + 1 < max_retries` of the task) and every nonzero base b, the
updated task returns to `waiting` with `next_run_at = now + b ^ (attempts+1)`
seconds (milliseconds in the model), the exponent being the new, 1-indexed
attempt count, with `exit_code` and `last_error` recorded. -/
theorem scoreTask_backoff_delay (nowUpd nowMs : Int) (attempts : Nat) (code : Int)
    (err : String) (base : Int) (cfg : Config) (t : Task)
    (hb : base ≠ 0) (hlt : attempts + 1 < t.max_retries) :
    scoreTask nowUpd nowMs attempts code err base cfg t =
      { t with attempts := attempts + 1, last_error := some err, exit_code := some code,
               next_run_at := some (nowMs + base ^ (attempts + 1) * 1000),
               state := "waiting", updated_at := some nowUpd } := by
  have hge : ¬ (attempts + 1 ≥ t.max_retries) := by omega
  simp [scoreTask, hge, effectiveBase, hb]

/-- Witness for the amended C2 at base 2, attempts 0, max 3. -/
theorem c2_witness :
    (2 : Int) ≠ 0 ∧ 0 + 1 < cTask.max_retries ∧
    scoreTask 50 1000 0 1 "boom" 2 DEFAULT_CONF cTask =
      { cTask with attempts := 0 + 1, last_error := some "boom", exit_code := some 1,
                   next_run_at := some (1000 + 2 ^ (0 + 1) * 1000),
                   state := "waiting", updated_at := some 50 } :=
  ⟨by decide, by decide,
   scoreTask_backoff_delay 50 1000 0 1 "boom" 2 DEFAULT_CONF cTask (by decide) (by decide)⟩

/-- Claim C3: when `m` is the eligible task with the smallest `created_at`
(every eligible task strictly before it in collection order has a strictly
larger key, every eligible task has a key at least as large — the stable
tie-break), `claimTask` selects exactly `m`, sets it `running`, refreshes its
`updated_at`, persists the whole snapshot with every other task untouched,
and returns the claimed task. -/
theorem claimTask_picks_first_oldest (now nowUpd : Int) (data : Snapshot) (m : Task)
    (l₁ l₂ f₁ f₂ : List Task)
    (hsplit : data.tasks = l₁ ++ m :: l₂)
    (hnotin : m ∉ l₁)
    (hfil : data.tasks.filter (eligible now) = f₁ ++ m :: f₂)
    (hbefore : ∀ x ∈ f₁, taskLe x m = false)
    (hmin : ∀ x ∈ data.tasks.filter (eligible now), taskLe m x = true) :
    eligible now m = true ∧
    claimTask now nowUpd data =
      some ({ m with state := "running", updated_at := some nowUpd },
            { data with
              tasks := l₁ ++ { m with state := "running", updated_at := some nowUpd } :: l₂ }) := by
  have hmem : m ∈ data.tasks.filter (eligible now) := by
    rw [hfil]
    exact List.mem_append_right _ (List.mem_cons_self m f₂)
  have helig : eligible now m = true := (List.mem_filter.mp hmem).2
  have h₂ : ∀ x ∈ f₂, taskLe m x = true := by
    intro x hx
    refine hmin x ?_
    rw [hfil]
    exact List.mem_append_right _ (List.mem_cons_of_mem m hx)
  have hfm : firstMinTask (data.tasks.filter (eligible now)) = some m := by
    rw [hfil]
    exact firstMinTask_append_of m f₁ f₂ hbefore h₂
  have hhead : (sortTasks (data.tasks.filter (eligible now))).head? = some m := by
    rw [head_sortTasks]
    exact hfm
  refine ⟨helig, ?_⟩
  cases hs : sortTasks (data.tasks.filter (eligible now)) with
  | nil => rw [hs] at hhead; simp at hhead
  | cons b rest =>
    rw [hs] at hhead
    simp only [List.head?_cons, Option.some.injEq] at hhead
    subst hhead
    rw [claimTask_eq_of_sort now nowUpd data b rest hs, hsplit,
        replaceFirst_append _ _ _ _ hnotin]

/-- Witness for C3: of two waiting tasks, the one created earlier (`wTaskB`,
key 2, stored second) is claimed. -/
theorem c3_witness :
    eligible 10 wTaskB = true ∧
    claimTask 10 11 wSnap =
      some ({ wTaskB with state := "running", updated_at := some 11 },
            { wSnap with
              tasks := [wTaskA] ++ { wTaskB with state := "running", updated_at := some 11 } :: [] }) :=
  claimTask_picks_first_oldest 10 11 wSnap wTaskB [wTaskA] [] [wTaskA] []
    (by decide) (by decide) (by decide) (by decide) (by decide)

/-- Claim C4: loading a legacy `jobs[]` snapshot migrates every record
(state renaming pending/processing/completed/dead to
waiting/running/done/failed, `next_attempt_at` renamed to `next_run_at`),
persists the migrated snapshot immediately, and a second load returns the
canonical shape directly with the file unchanged. -/
theorem legacy_migration_canonical (jobs : List LegacyJob) (cfg : Option Config) :
    (loadData (.legacy jobs cfg)).1 =
      { tasks := jobs.map migrateJob, config := cfg.getD DEFAULT_CONF } ∧
    (loadData (.legacy jobs cfg)).2 = saveData (loadData (.legacy jobs cfg)).1 ∧
    migrateState (some "pending") = "waiting" ∧
    migrateState (some "processing") = "running" ∧
    migrateState (some "completed") = "done" ∧
    migrateState (some "dead") = "failed" ∧
    (∀ j : LegacyJob, (migrateJob j).state = migrateState j.state ∧
        (migrateJob j).next_run_at = j.next_attempt_at) ∧
    loadData (loadData (.legacy jobs cfg)).2 =
      ((loadData (.legacy jobs cfg)).1, (loadData (.legacy jobs cfg)).2) :=
  ⟨rfl, rfl, by decide, by decide, by decide, by decide, fun j => ⟨rfl, rfl⟩, rfl⟩

/-- Claim C5: `dead retry <id>` on the store: when the first task carrying
the id in state `failed` exists it is reset to `waiting` with `attempts = 0`
and `next_run_at` cleared and the snapshot is saved; when every task with the
id is `done` or `waiting` (in particular when the id is absent) the command
is rejected (exit 1) without any write. -/
theorem deadRetry_spec (now : Int) (id : String) (data : Snapshot) :
    (∀ (l₁ : List Task) (t : Task) (l₂ : List Task),
        data.tasks = l₁ ++ t :: l₂ → t.id = id → t.state = "failed" →
        (∀ x ∈ l₁, ¬(x.id = id ∧ x.state = "failed")) →
        deadRetry now id data =
          some { data with
                 tasks := l₁ ++ { t with state := "waiting", attempts := 0,
                                         next_run_at := none,
                                         updated_at := some now } :: l₂ }) ∧
    ((∀ t ∈ data.tasks, t.id = id → t.state = "done" ∨ t.state = "waiting") →
        deadRetry now id data = none) := by
  constructor
  · intro l₁ t l₂ hsplit hid hst hfirst
    have hl₁ : ∀ x ∈ l₁, (x.id == id && x.state == "failed") = false := by
      intro x hx
      have hnx := hfirst x hx
      cases hxid : x.id == id
      · simp [hxid]
      · cases hxst : x.state == "failed"
        · simp [hxid, hxst]
        · exact absurd ⟨by simpa using hxid, by simpa using hxst⟩ hnx
    have hpt : (t.id == id && t.state == "failed") = true := by
      simp [hid, hst]
    simp only [deadRetry]
    rw [hsplit, updateFirst_append l₁ l₂ hl₁ hpt]
    rfl
  · intro h
    simp only [deadRetry, Option.map_eq_none']
    rw [updateFirst_eq_none]
    intro x hx
    cases hxid : x.id == id
    · simp [hxid]
    · have hxi : x.id = id := by simpa using hxid
      have hfd : (x.state == "failed") = false := by
        rcases h x hx hxi with hd | hw
        · rw [hd]; decide
        · rw [hw]; decide
      simp [hfd]

/-- Witness for C5: the failed task `f` is requeued; the done task `d` is
rejected without a write. -/
theorem c5_witness :
    deadRetry 99 "f" dSnap =
      some { dSnap with
             tasks := [] ++ { dTaskF with state := "waiting", attempts := 0,
                                          next_run_at := none,
                                          updated_at := some 99 } :: [dTaskD] } ∧
    deadRetry 99 "d" dSnap = none :=
  ⟨(deadRetry_spec 99 "f" dSnap).1 [] dTaskF [dTaskD] (by decide) (by decide) (by decide)
      (by simp),
   (deadRetry_spec 99 "d" dSnap).2 (by decide)⟩

/-- Claim C6: with zero eligible tasks (in particular an empty task list)
`claimTask` returns none before any write; the snapshot is left untouched, so
repeated calls keep returning none. -/
theorem claimTask_empty_none (now nowUpd : Int) (data : Snapshot) :
    (data.tasks.filter (eligible now) = [] → claimTask now nowUpd data = none) ∧
    (data.tasks = [] → claimTask now nowUpd data = none) := by
  constructor
  · intro h
    unfold claimTask
    rw [h]
    rfl
  · intro h
    unfold claimTask
    rw [h]
    rfl

/-- Witness for C6 on the empty store. -/
theorem c6_witness :
    emptySnap.tasks.filter (eligible 0) = [] ∧ claimTask 0 0 emptySnap = none :=
  ⟨by decide, (claimTask_empty_none 0 0 emptySnap).1 (by decide)⟩

/-- Claim C7: loading an already-canonical snapshot (tasks array plus config
object) returns exactly the stored structure without writing, and saving the
loaded snapshot writes back exactly the structure that was read. -/
theorem save_load_canonical_noop (tasks : List Task) (cfg : Config) :
    (loadData (.canonical tasks (some cfg))).1 = { tasks := tasks, config := cfg } ∧
    saveData (loadData (.canonical tasks (some cfg))).1 = .canonical tasks (some cfg) ∧
    (loadData (.canonical tasks (some cfg))).2 = .canonical tasks (some cfg) :=
  ⟨rfl, rfl, rfl⟩

/-- Claim C8: the attempts counter never decreases through normal operation:
a claim preserves the attempts of every task, `markDone` preserves them, a
canonical load returns the stored tasks unchanged, and scoring a failure of a
task whose stored `attempts` is the scored count sets it to that count plus
one (the administrative requeue of C5 being the only reset). -/
theorem attempts_monotonic :
    (∀ (now nowUpd : Int) (data : Snapshot) (t1 : Task) (snap1 : Snapshot),
        claimTask now nowUpd data = some (t1, snap1) →
        snap1.tasks.map Task.attempts = data.tasks.map Task.attempts) ∧
    (∀ (now : Int) (id : String) (data : Snapshot) (snap1 : Snapshot),
        markDone now id data = some snap1 →
        snap1.tasks.map Task.attempts = data.tasks.map Task.attempts) ∧
    (∀ (tasks : List Task) (cfg : Option Config),
        (loadData (.canonical tasks cfg)).1.tasks = tasks) ∧
    (∀ (nowUpd nowMs : Int) (id : String) (att mr : Nat) (code : Int) (err : String)
        (base : Int) (data : Snapshot) (l₁ : List Task) (t : Task) (l₂ : List Task),
        data.tasks = l₁ ++ t :: l₂ → (∀ x ∈ l₁, x.id ≠ id) → t.id = id →
        markFailed nowUpd nowMs id att mr code err base data =
          some { data with
                 tasks := l₁ ++ scoreTask nowUpd nowMs att code err base data.config t :: l₂ } ∧
        (scoreTask nowUpd nowMs att code err base data.config t).attempts = att + 1) := by
  refine ⟨?_, ?_, ?_, ?_⟩
  · intro now nowUpd data t1 snap1 h
    cases hs : sortTasks (data.tasks.filter (eligible now)) with
    | nil =>
      unfold claimTask at h
      rw [hs] at h
      simp at h
    | cons b rest =>
      rw [claimTask_eq_of_sort now nowUpd data b rest hs] at h
      simp only [Option.some.injEq, Prod.mk.injEq] at h
      obtain ⟨ht1, hsnap⟩ := h
      subst hsnap
      show (replaceFirst b { b with state := "running", updated_at := some nowUpd }
          data.tasks).map Task.attempts = data.tasks.map Task.attempts
      exact map_replaceFirst Task.attempts b
        { b with state := "running", updated_at := some nowUpd } rfl data.tasks
  · intro now id data snap1 h
    simp only [markDone, Option.map_eq_some'] at h
    obtain ⟨ts, hts, rfl⟩ := h
    obtain ⟨l₁, t, l₂, hl, rfl, hpt, hl₁⟩ := updateFirst_eq_some hts
    rw [hl]
    simp
  · intro tasks cfg
    rfl
  · intro nowUpd nowMs id att mr code err base data l₁ t l₂ hsplit hne hid
    have hl₁ : ∀ x ∈ l₁, (x.id == id) = false := by
      intro x hx
      rw [beq_eq_false_iff_ne]
      exact hne x hx
    have hpt : (t.id == id) = true := by simp [hid]
    constructor
    · simp only [markFailed]
      rw [hsplit, updateFirst_append l₁ l₂ hl₁ hpt]
      rfl
    · simp only [scoreTask]
      split <;> rfl

/-- Witness for C8: each conjunct applied to a concrete singleton store. -/
theorem c8_witness :
    (({ wSnap1 with
        tasks := [{ wTaskA with state := "running", updated_at := some 11 }] } : Snapshot).tasks.map
          Task.attempts = wSnap1.tasks.map Task.attempts) ∧
    (({ wSnap1 with
        tasks := [{ wTaskA with state := "done", exit_code := some 0, updated_at := some 20 }] } : Snapshot).tasks.map
          Task.attempts = wSnap1.tasks.map Task.attempts) ∧
    ((loadData (.canonical [wTaskA] none)).1.tasks = [wTaskA]) ∧
    (markFailed 50 1000 "a" 0 3 1 "boom" 2 wSnap1 =
        some { wSnap1 with
               tasks := [] ++ scoreTask 50 1000 0 1 "boom" 2 wSnap1.config wTaskA :: [] } ∧
      (scoreTask 50 1000 0 1 "boom" 2 wSnap1.config wTaskA).attempts = 0 + 1) :=
  ⟨attempts_monotonic.1 10 11 wSnap1
      { wTaskA with state := "running", updated_at := some 11 }
      { wSnap1 with tasks := [{ wTaskA with state := "running", updated_at := some 11 }] }
      (by decide),
   attempts_monotonic.2.1 20 "a" wSnap1
      { wSnap1 with
        tasks := [{ wTaskA with state := "done", exit_code := some 0, updated_at := some 20 }] }
      (by decide),
   attempts_monotonic.2.2.1 [wTaskA] none,
   attempts_monotonic.2.2.2 50 1000 "a" 0 3 1 "boom" 2 wSnap1 [] wTaskA []
      (by decide) (by simp) (by decide)⟩

/-- Claim C9: an add whose computed id already exists overwrites the first
record with that id in place (same position, collection length preserved)
instead of appending or failing; and in both branches of `addTaskObject` the
uniqueness of task ids is preserved. -/
theorem addTask_inplace_unique (now : Int) (fresh : String) (input : TaskInput)
    (data : Snapshot) :
    (∀ (l₁ : List Task) (x : Task) (l₂ : List Task), input.command ≠ "" →
        data.tasks = l₁ ++ x :: l₂ → x.id = addId fresh input →
        (∀ y ∈ l₁, y.id ≠ addId fresh input) →
        addTaskObject now fresh input data =
          some (addId fresh input,
            { data with tasks := l₁ ++ addEntry now fresh input data.config :: l₂ })) ∧
    (∀ (id : String) (snap1 : Snapshot),
        addTaskObject now fresh input data = some (id, snap1) →
        (data.tasks.map Task.id).Nodup → (snap1.tasks.map Task.id).Nodup) := by
  constructor
  · intro l₁ x l₂ hcmd hsplit hxid hl₁
    have hl₁' : ∀ y ∈ l₁, (y.id == addId fresh input) = false := by
      intro y hy
      rw [beq_eq_false_iff_ne]
      exact hl₁ y hy
    have hpt : (x.id == addId fresh input) = true := by simp [hxid]
    simp only [addTaskObject, if_neg hcmd]
    rw [hsplit, updateFirst_append l₁ l₂ hl₁' hpt]
  · intro id snap1 h hnd
    by_cases hcmd : input.command = ""
    · simp [addTaskObject, hcmd] at h
    · simp only [addTaskObject, if_neg hcmd] at h
      cases hu : updateFirst (fun t => t.id == addId fresh input)
          (fun _ => addEntry now fresh input data.config) data.tasks with
      | some ts =>
        rw [hu] at h
        simp only [Option.some.injEq, Prod.mk.injEq] at h
        obtain ⟨hid1, hsnap⟩ := h
        subst hsnap
        obtain ⟨l₁, t, l₂, hl, hts, hpt, hl₁⟩ := updateFirst_eq_some hu
        subst hts
        have hti : t.id = addId fresh input := by simpa using hpt
        have hied : (addEntry now fresh input data.config).id = t.id := by
          rw [hti]
          rfl
        show ((l₁ ++ addEntry now fresh input data.config :: l₂).map Task.id).Nodup
        have hmap : (l₁ ++ addEntry now fresh input data.config :: l₂).map Task.id =
            data.tasks.map Task.id := by
          rw [hl]
          simp [hied]
        rw [hmap]
        exact hnd
      | none =>
        rw [hu] at h
        simp only [Option.some.injEq, Prod.mk.injEq] at h
        obtain ⟨hid1, hsnap⟩ := h
        subst hsnap
        have habs : ∀ x ∈ data.tasks, (x.id == addId fresh input) = false :=
          updateFirst_eq_none.mp hu
        show ((data.tasks ++ [addEntry now fresh input data.config]).map Task.id).Nodup
        rw [List.map_append, List.nodup_append]
        refine ⟨hnd, by simp, ?_⟩
        intro a ha hb
        simp only [List.map_cons, List.map_nil, List.mem_singleton] at hb
        obtain ⟨x, hx, rfl⟩ := List.mem_map.mp ha
        have hfx := habs x hx
        have hxe : x.id = addId fresh input := hb
        rw [hxe] at hfx
        simp at hfx

/-- Witness for C9: adding a payload with id `a` over the two-task store
replaces `wTaskA` in place and keeps the ids unique. -/
theorem c9_witness :
    addTaskObject 100 "ffff" inputA wSnap =
      some (addId "ffff" inputA,
        { wSnap with tasks := [] ++ addEntry 100 "ffff" inputA wSnap.config :: [wTaskB] }) ∧
    (({ wSnap with
        tasks := [] ++ addEntry 100 "ffff" inputA wSnap.config :: [wTaskB] } : Snapshot).tasks.map
          Task.id).Nodup :=
  ⟨(addTask_inplace_unique 100 "ffff" inputA wSnap).1 [] wTaskA [wTaskB]
      (by decide) (by decide) (by decide) (by simp),
   (addTask_inplace_unique 100 "ffff" inputA wSnap).2 (addId "ffff" inputA)
      { wSnap with tasks := [] ++ addEntry 100 "ffff" inputA wSnap.config :: [wTaskB] }
      (by decide) (by decide)⟩

/-- Claim C10: when no stored task carries the id, `markDone` and both
versions of `markFailed` return before writing: no error is raised and the
snapshot is not persisted. -/
theorem mark_missing_id_noop (now nowUpd nowMs : Int) (id : String) (att mr : Nat)
    (code : Int) (err : String) (base : Int) (data : Snapshot)
    (h : ∀ t ∈ data.tasks, t.id ≠ id) :
    markDone now id data = none ∧
    markFailed nowUpd nowMs id att mr code err base data = none ∧
    markFailedTfjs nowUpd nowMs id att mr code err base data = none := by
  have hp : ∀ x ∈ data.tasks, (x.id == id) = false := by
    intro x hx
    rw [beq_eq_false_iff_ne]
    exact h x hx
  refine ⟨?_, ?_, ?_⟩
  · simp only [markDone, Option.map_eq_none']
    exact updateFirst_eq_none.mpr hp
  · simp only [markFailed, Option.map_eq_none']
    exact updateFirst_eq_none.mpr hp
  · simp only [markFailedTfjs, Option.map_eq_none']
    exact updateFirst_eq_none.mpr hp

/-- Witness for C10 at an id absent from the store. -/
theorem c10_witness :
    markDone 5 "zzz" wSnap1 = none ∧
    markFailed 5 6 "zzz" 0 3 1 "e" 2 wSnap1 = none ∧
    markFailedTfjs 5 6 "zzz" 0 3 1 "e" 2 wSnap1 = none :=
  mark_missing_id_noop 5 5 6 "zzz" 0 3 1 "e" 2 wSnap1 (by decide)

end Taskflow
